import Mathlib

/-!
Shallow embedding of the quorum renewable-reservation engine.

Sources embedded here:
- `server/state.ts` : the in-memory hold store (`HoldState`, `createHoldState`,
  `updateHoldState`, `getHoldState`, `getAllHolds`, `getActiveHolds`,
  `getHoldByPhone`, `sendHoldCommand`).
- `bot/holder.ts` : the hold cycling loop (`runHoldCycle`), modelled as a step
  function over a loop state, with external cycle/recovery outcomes supplied
  as oracle inputs.
- `server/routes.ts` : the `/hold/:id/status`, `/hold/:id/buy`,
  `/hold/:id/drop` and `/holds` endpoints, modelled as store transforms and
  response builders.
- `bot/sms-loop.ts` : the per-message pipeline of `tick` (high-water mark,
  echo guard, per-phone cooldown).
-/

namespace Quorum

/-- Status values of a hold, from `state.ts`:
`'active' | 'dropped' | 'buying' | 'bought' | 'error' | 'pending'`. -/
inductive Status where
  | pending
  | active
  | buying
  | bought
  | dropped
  | error
deriving DecidableEq, Repr

/-- Pending command values, from `state.ts`: `'buy' | 'drop' | null`
(the `null` case is `Option.none` at the use site). -/
inductive Command where
  | buy
  | drop
deriving DecidableEq, Repr

/-- The spec's terminal statuses: `Committed` (`bought`), `Released`
(`dropped`), `Failed` (`error`). -/
def Status.isTerminal : Status → Bool
  | .bought => true
  | .dropped => true
  | .error => true
  | _ => false

/-- The `HoldState` record from `state.ts`. -/
structure HoldState where
  holdId : String
  eventUrl : String
  eventName : String
  ticketType : String
  quantity : Nat
  status : Status
  cycleCount : Nat
  startTime : Nat
  lastCycleTime : Nat
  totalFeeCents : Nat
  command : Option Command
  fanPhone : Option String
  fanName : Option String
  fanEmail : Option String
deriving DecidableEq, Repr

/-- A `Partial<HoldState>` as passed to `updateHoldState`: each field either
absent (left unchanged by `Object.assign`) or present with a new value.
Only the fields actually written by some caller in the repository appear. -/
structure HoldUpdate where
  status : Option Status := none
  cycleCount : Option Nat := none
  startTime : Option Nat := none
  lastCycleTime : Option Nat := none
  totalFeeCents : Option Nat := none
  command : Option (Option Command) := none
  fanPhone : Option (Option String) := none
  fanName : Option (Option String) := none
  fanEmail : Option (Option String) := none
deriving DecidableEq, Repr

/-- Semantics of `Object.assign(state, updates)` on a hold record. -/
def applyUpdate (h : HoldState) (u : HoldUpdate) : HoldState :=
  { holdId := h.holdId
    eventUrl := h.eventUrl
    eventName := h.eventName
    ticketType := h.ticketType
    quantity := h.quantity
    status := u.status.getD h.status
    cycleCount := u.cycleCount.getD h.cycleCount
    startTime := u.startTime.getD h.startTime
    lastCycleTime := u.lastCycleTime.getD h.lastCycleTime
    totalFeeCents := u.totalFeeCents.getD h.totalFeeCents
    command := u.command.getD h.command
    fanPhone := u.fanPhone.getD h.fanPhone
    fanName := u.fanName.getD h.fanName
    fanEmail := u.fanEmail.getD h.fanEmail }

/-- The in-memory holds map (`const holds = new Map<string, HoldState>()`),
modelled as a list in insertion order (a JS `Map` iterates in insertion
order, which is what `getAllHolds` returns). -/
abbrev Store := List HoldState

/-- Function `createHoldState` from `state.ts`: builds the initial record
(status `pending`, zero counters) and inserts it. -/
def createHoldState (holdId eventUrl eventName ticketType : String)
    (quantity : Nat) (fanPhone : Option String) (now : Nat) : HoldState :=
  { holdId := holdId
    eventUrl := eventUrl
    eventName := eventName
    ticketType := ticketType
    quantity := quantity
    status := .pending
    cycleCount := 0
    startTime := now
    lastCycleTime := now
    totalFeeCents := 0
    command := none
    fanPhone := fanPhone
    fanName := none
    fanEmail := none }

/-- Function `getHoldState` from `state.ts`: `holds.get(holdId) || null`. -/
def getHoldState (holdId : String) (store : Store) : Option HoldState :=
  store.find? (fun h => decide (h.holdId = holdId))

/-- Function `getAllHolds` from `state.ts`: `Array.from(holds.values())`. -/
def getAllHolds (store : Store) : List HoldState :=
  store

/-- Function `getActiveHolds` from `state.ts`:
`getAllHolds().filter(h => h.status === 'active' || h.status === 'buying')`. -/
def getActiveHolds (store : Store) : List HoldState :=
  (getAllHolds store).filter
    (fun h => decide (h.status = .active) || decide (h.status = .buying))

/-- Function `getHoldByPhone` from `state.ts`:
`getAllHolds().find(h => h.fanPhone === phoneNumber) || null`. -/
def getHoldByPhone (phoneNumber : String) (store : Store) : Option HoldState :=
  (getAllHolds store).find? (fun h => decide (h.fanPhone = some phoneNumber))

/-- Function `updateHoldState` from `state.ts`, effect on the map: if the record
exists, `Object.assign` the updates onto it (keys of a JS `Map` are unique,
so the list holds at most one record per id on every reachable store). -/
def updateHoldState (holdId : String) (u : HoldUpdate) (store : Store) : Store :=
  store.map (fun h => if h.holdId = holdId then applyUpdate h u else h)

/-- Function `sendHoldCommand` from `state.ts`: returns `false` when the hold is
missing, otherwise sets `state.command = command` and returns `true`. -/
def sendHoldCommand (holdId : String) (c : Command) (store : Store) :
    Bool × Store :=
  match getHoldState holdId store with
  | none => (false, store)
  | some _ =>
      (true, store.map (fun h =>
        if h.holdId = holdId then { h with command := some c } else h))

/-! ### Control-surface endpoints (`server/routes.ts`) -/

/-- Effect of `POST /api/hold/:id/buy` on the store: 404 when the hold is
missing, otherwise `updateHoldState(holdId, { fanName: name, fanEmail: email,
command: 'buy', status: 'buying' })` (the request-body `name`/`email` are
written even when absent, since `Object.assign` copies an `undefined`-valued
property). -/
def routeBuyStore (holdId : String) (name email : Option String)
    (store : Store) : Store :=
  match getHoldState holdId store with
  | none => store
  | some _ =>
      updateHoldState holdId
        { status := some .buying, command := some (some .buy),
          fanName := some name, fanEmail := some email } store

/-- Effect of `POST /api/hold/:id/drop` on the store:
`sendHoldCommand(holdId, 'drop')`, 404 when that returns `false`, otherwise
`updateHoldState(holdId, { status: 'dropped' })`. -/
def routeDropStore (holdId : String) (store : Store) : Store :=
  match sendHoldCommand holdId .drop store with
  | (false, s) => s
  | (true, s) => updateHoldState holdId { status := some .dropped } s

/-- The display string `(state.totalFeeCents / 100).toFixed(2)` — dollars from cents. -/
def formatCents (c : Nat) : String :=
  toString (c / 100) ++ "." ++
    (if c % 100 < 10 then "0" ++ toString (c % 100) else toString (c % 100))

/-- The JSON `hold` object of `GET /api/hold/:id/status` and the elements of
`GET /api/holds`: the spread of the record with `fanPhone`/`fanEmail`
overwritten to `undefined` plus derived display fields. -/
structure HoldView where
  holdId : String
  eventUrl : String
  eventName : String
  ticketType : String
  quantity : Nat
  status : Status
  cycleCount : Nat
  startTime : Nat
  lastCycleTime : Nat
  totalFeeCents : Nat
  command : Option Command
  fanPhone : Option String
  fanName : Option String
  fanEmail : Option String
  elapsedMs : Nat
  elapsedMinutes : Nat
  feeDollars : String
deriving DecidableEq, Repr

/-- The object `{ ...state, fanPhone: undefined, fanEmail: undefined, elapsedMs,
elapsedMinutes, feeDollars }` as built by the status endpoint (`/holds` builds
the same object minus `elapsedMinutes`, which we keep for uniformity; it is a
function of `elapsedMs`). -/
def sanitizeHold (now : Nat) (h : HoldState) : HoldView :=
  { holdId := h.holdId
    eventUrl := h.eventUrl
    eventName := h.eventName
    ticketType := h.ticketType
    quantity := h.quantity
    status := h.status
    cycleCount := h.cycleCount
    startTime := h.startTime
    lastCycleTime := h.lastCycleTime
    totalFeeCents := h.totalFeeCents
    command := h.command
    fanPhone := none
    fanName := h.fanName
    fanEmail := none
    elapsedMs := now - h.startTime
    elapsedMinutes := (now - h.startTime) / 60000
    feeDollars := formatCents h.totalFeeCents }

/-- Response body of `GET /api/hold/:id/status`: 404 (`none`) when the hold
is missing, otherwise the sanitized view. -/
def statusEndpoint (now : Nat) (holdId : String) (store : Store) :
    Option HoldView :=
  (getHoldState holdId store).map (sanitizeHold now)

/-- Response body of `GET /api/holds`: the active holds, sanitized. -/
def holdsEndpoint (now : Nat) (store : Store) : List HoldView :=
  (getActiveHolds store).map (sanitizeHold now)

/-! ### The cycling loop (`bot/holder.ts`, `runHoldCycle`)

The loop's interactions with the outside world (Playwright page actions in
`executeOneCycle`, page recovery in `recoverPage`) are supplied as oracle
inputs: each renewal attempt either succeeds or throws, and a thrown error
may or may not be "fatal" (the external resource gone).  The catch block of
`runHoldCycle` never inspects the thrown error, so the flag is carried in the
model only to let theorems speak about fatal errors. -/

/-- Constant `HOLD_RATE_CENTS` (default `10`). -/
def HOLD_RATE_CENTS : Nat := 10

/-- Constant `MAX_RETRIES = 3`. -/
def MAX_RETRIES : Nat := 3

/-- Outcome of one `executeOneCycle` call: normal return, or a throw
(carrying whether the underlying failure was fatal — unused by the code). -/
inductive CycleResult where
  | ok
  | err (fatal : Bool)
deriving DecidableEq, Repr

/-- Outcome of one `recoverPage` call: normal return or a throw. -/
inductive RecoveryResult where
  | rok
  | rerr
deriving DecidableEq, Repr

/-- State of one reservation's cycling loop: its store record plus the local
variables `cycleCount` and `consecutiveErrors` of `runHoldCycle`, and whether
the loop has exited (`break`). -/
structure LoopState where
  record : HoldState
  cycleCount : Nat
  consecutiveErrors : Nat
  stopped : Bool
deriving DecidableEq, Repr

/-- The pre-loop `updateHoldState(holdId, { status:'active', cycleCount:0,
startTime:Date.now(), totalFeeCents:0, lastCycleTime:Date.now(),
command:null })` of `runHoldCycle`, plus the locals starting at zero. -/
def initHold (r : HoldState) (now : Nat) : LoopState :=
  { record := applyUpdate r
      { status := some .active, cycleCount := some 0, startTime := some now,
        totalFeeCents := some 0, lastCycleTime := some now,
        command := some none }
    cycleCount := 0
    consecutiveErrors := 0
    stopped := false }

/-- Operations other actors perform on this record while the loop runs:
the SMS handler's `sendHoldCommand(holdId,'buy'/'drop')` and the control
surface's buy/drop endpoints. -/
inductive ExtOp where
  | smsBuy
  | smsDrop
  | routeBuy (name email : Option String)
  | routeDrop
deriving DecidableEq, Repr

/-- Effect of an external operation on the record (all four operate on an
existing record, so the `sendHoldCommand` existence check passes). -/
def extApply (op : ExtOp) (r : HoldState) : HoldState :=
  match op with
  | .smsBuy => { r with command := some .buy }
  | .smsDrop => { r with command := some .drop }
  | .routeBuy name email =>
      applyUpdate r
        { status := some .buying, command := some (some .buy),
          fanName := some name, fanEmail := some email }
  | .routeDrop =>
      applyUpdate { r with command := some .drop }
        { status := some .dropped }

/-- One event in a reservation's history: an external operation, or one pass
of the `while (true)` body of `runHoldCycle` with the oracle outcomes for the
renewal attempt and (if reached) the recovery attempt, at time `now`. -/
inductive Event where
  | ext (op : ExtOp)
  | iter (cyc : CycleResult) (rcv : RecoveryResult) (now : Nat)
deriving DecidableEq, Repr

/-- One pass of the loop body (lines 85–137 of `holder.ts`):
read `getHoldCommand`; on `'drop'`/`'buy'` update status and `break`;
otherwise attempt the cycle; on success bump the counters and write the
record; on a throw bump `consecutiveErrors` and either retry in place,
or at the threshold attempt recovery (success resets the error counter,
a throw sets status `'error'` and breaks). -/
def loopIter (st : LoopState) (cyc : CycleResult) (rcv : RecoveryResult)
    (now : Nat) : LoopState :=
  if st.stopped then st
  else
    match st.record.command with
    | some .drop =>
        { st with
          record := applyUpdate st.record
            { status := some .dropped, command := some (some .drop) }
          stopped := true }
    | some .buy =>
        { st with
          record := applyUpdate st.record
            { status := some .buying, command := some (some .buy) }
          stopped := true }
    | none =>
        match cyc with
        | .ok =>
            let c := st.cycleCount + 1
            { record := applyUpdate st.record
                { cycleCount := some c,
                  totalFeeCents := some (c * HOLD_RATE_CENTS),
                  lastCycleTime := some now, status := some .active }
              cycleCount := c
              consecutiveErrors := 0
              stopped := false }
        | .err _ =>
            let e := st.consecutiveErrors + 1
            if MAX_RETRIES ≤ e then
              match rcv with
              | .rok => { st with consecutiveErrors := 0 }
              | .rerr =>
                  { st with
                    record := applyUpdate st.record { status := some .error }
                    stopped := true }
            else { st with consecutiveErrors := e }

/-- Step on one event. -/
def step (st : LoopState) (ev : Event) : LoopState :=
  match ev with
  | .ext op => { st with record := extApply op st.record }
  | .iter cyc rcv now => loopIter st cyc rcv now

/-- Run a sequence of events. -/
def runTrace (st : LoopState) (evs : List Event) : LoopState :=
  evs.foldl step st

/-! ### Command ingestion (`bot/sms-loop.ts`, `tick`) -/

/-- Cooldown window `COOLDOWN_MS = 10_000` of `sms-loop.ts`. -/
def COOLDOWN_MS : Nat := 10000

/-- Echo-guard TTL `SENT_TEXT_TTL_MS = 60_000`. -/
def SENT_TEXT_TTL_MS : Nat := 60000

/-- Default value of `KYD_2FA_SENDER`. -/
def KYD_2FA_SENDER : String := "22395"

/-- Function `normalizePhone`: strip non-digits, then strip a leading `1` from an
11-digit number (`.replace(/\D/g,'').replace(/^1(\d{10})$/,'$1')`). -/
def normalizePhone (phone : String) : String :=
  let d := String.mk (phone.toList.filter Char.isDigit)
  if d.length = 11 ∧ d.toList.head? = some '1' then
    String.mk (d.toList.drop 1)
  else d

/-- An inbound message row from `chat.db` as read by `getRecentMessages`. -/
structure Msg where
  rowid : Nat
  sender : String
  text : String
  isFromMe : Bool
deriving DecidableEq, Repr

/-- Lookup in a JS `Map<string, number>` modelled as an association list. -/
def lookupTS (k : String) (l : List (String × Nat)) : Option Nat :=
  (l.find? (fun p => decide (p.1 = k))).map Prod.snd

/-- Semantics of `Map.set`: replace any existing binding for the key. -/
def setTS (k : String) (v : Nat) (l : List (String × Nat)) :
    List (String × Nat) :=
  (k, v) :: l.filter (fun p => decide (p.1 ≠ k))

/-- Mutable state of the SMS loop: the high-water mark `lastSeenRowId`, the
echo-guard map `sentTexts`, the per-phone cooldown map `phoneCooldowns`, and
(model-only observation) the list of messages that reached the
`processMessage` routing stage, most recent first. -/
structure SmsState where
  lastSeenRowId : Nat
  sentTexts : List (String × Nat)
  phoneCooldowns : List (String × Nat)
  routed : List Msg
deriving DecidableEq, Repr

/-- The initial SMS-loop state (`lastSeenRowId = 0`, empty maps). -/
def smsInit : SmsState :=
  { lastSeenRowId := 0, sentTexts := [], phoneCooldowns := [], routed := [] }

/-- Blank test `!msg.text || msg.text.trim() === ''`: the text is blank when every
character is whitespace (or there are none). -/
def isBlank (s : String) : Bool :=
  s.toList.all Char.isWhitespace

/-- Steps 3–5 of the per-message pipeline, applied to the state that already
carries the raised high-water mark: skip outbound messages, the 2FA short
code, blank texts, echoes, and senders inside their cooldown window;
otherwise route the message and, when the reply send succeeds, record the
sent text and the sender's cooldown timestamp. -/
def processNewMsg (now : Nat) (reply : String) (sendOk : Bool)
    (st : SmsState) (msg : Msg) : SmsState :=
  if msg.isFromMe then st
  else if msg.sender = KYD_2FA_SENDER then st
  else if isBlank msg.text then st
  else if st.sentTexts.any (fun p => decide (p.1 = msg.text)) then st
  else
    let lastProcessed := (lookupTS (normalizePhone msg.sender)
      st.phoneCooldowns).getD 0
    if now - lastProcessed < COOLDOWN_MS then st
    else
      let st2 := { st with routed := msg :: st.routed }
      if sendOk then
        { st2 with
          sentTexts := setTS reply now st2.sentTexts
          phoneCooldowns :=
            setTS (normalizePhone msg.sender) now st2.phoneCooldowns }
      else st2

/-- The per-message body of `tick` (lines 79–146 of `sms-loop.ts`), with the
LLM reply and the success of `sendMessage` supplied as oracle inputs:
skip if `rowid ≤ lastSeenRowId`, otherwise raise the high-water mark to
`max(lastSeenRowId, rowid)` and run the filtering/routing pipeline. -/
def processOneMsg (now : Nat) (reply : String) (sendOk : Bool)
    (st : SmsState) (msg : Msg) : SmsState :=
  if msg.rowid ≤ st.lastSeenRowId then st
  else
    processNewMsg now reply sendOk
      { st with lastSeenRowId := max st.lastSeenRowId msg.rowid } msg

/-- The TTL prune at the top of `tick`: drop sent-text entries older than
`SENT_TEXT_TTL_MS`. -/
def pruneSentTexts (now : Nat) (st : SmsState) : SmsState :=
  { st with
    sentTexts := st.sentTexts.filter
      (fun p => decide (now - p.2 ≤ SENT_TEXT_TTL_MS)) }

/-- One whole poll tick: prune, then process the fetched batch in order
(each message paired with its oracle reply and send outcome). -/
def smsTick (now : Nat) (batch : List (Msg × String × Bool))
    (st : SmsState) : SmsState :=
  batch.foldl (fun s mrb => processOneMsg now mrb.2.1 mrb.2.2 s mrb.1)
    (pruneSentTexts now st)

/-! ### Derived definitions used by the verification -/

/-- Blank the two PII fields of a record; two records are observationally
equivalent for the sanitized endpoints iff their `scrubPII` images agree. -/
def scrubPII (h : HoldState) : HoldState :=
  { h with fanPhone := none, fanEmail := none }

/-- Invariant of the cycling loop, from `initHold` on: the local
`cycleCount` of `runHoldCycle` mirrors the stored one, the stored fee is
always `cycleCount × HOLD_RATE_CENTS`, and while the loop is running a
record with no pending command is `active`. -/
def LoopInv (st : LoopState) : Prop :=
  st.cycleCount = st.record.cycleCount ∧
  st.record.totalFeeCents = st.record.cycleCount * HOLD_RATE_CENTS ∧
  (st.stopped = false → st.record.command = none →
    st.record.status = Status.active)

/-- Fine-grained state of `runHoldCycle`: like `LoopState`, but with the
renewal attempt's in-flight window explicit.  `inFlight` is true from the
moment the loop body starts `executeOneCycle` (right after the command
check at lines 86–99 of `holder.ts`) until that awaited call returns or
throws (the success write at line 110 or the catch at line 119).  The real
loop spends about five minutes awaiting inside that window, during which
the store can be mutated by other tasks. -/
structure FineState where
  record : HoldState
  cycleCount : Nat
  consecutiveErrors : Nat
  stopped : Bool
  inFlight : Bool
deriving DecidableEq, Repr

/-- Events of the fine-grained model.  External operations (`ext`) can land
at any point — in particular inside the in-flight window.  `boundary` is
the pending-command check that either consumes a command or starts a
renewal attempt; `complete` is the awaited renewal attempt finishing with
the given outcome (the at-threshold recovery is folded into `complete`
since it writes no counters). -/
inductive FineEvent where
  | ext (op : ExtOp)
  | boundary
  | complete (cyc : CycleResult) (rcv : RecoveryResult) (now : Nat)
deriving DecidableEq, Repr

/-- One fine-grained step.  A `boundary` while a renewal is in flight, and
a `complete` with no renewal in flight, are no-ops (the program has no such
schedule; treating them as no-ops lets traces range over arbitrary event
lists). -/
def fineStep (st : FineState) (ev : FineEvent) : FineState :=
  match ev with
  | .ext op => { st with record := extApply op st.record }
  | .boundary =>
      if st.stopped || st.inFlight then st
      else
        match st.record.command with
        | some .drop =>
            { st with
              record := applyUpdate st.record
                { status := some .dropped, command := some (some .drop) }
              stopped := true }
        | some .buy =>
            { st with
              record := applyUpdate st.record
                { status := some .buying, command := some (some .buy) }
              stopped := true }
        | none => { st with inFlight := true }
  | .complete cyc rcv now =>
      if st.stopped || !st.inFlight then st
      else
        match cyc with
        | .ok =>
            let c := st.cycleCount + 1
            { record := applyUpdate st.record
                { cycleCount := some c,
                  totalFeeCents := some (c * HOLD_RATE_CENTS),
                  lastCycleTime := some now, status := some .active }
              cycleCount := c
              consecutiveErrors := 0
              stopped := false
              inFlight := false }
        | .err _ =>
            let e := st.consecutiveErrors + 1
            if MAX_RETRIES ≤ e then
              match rcv with
              | .rok =>
                  { st with consecutiveErrors := 0, inFlight := false }
              | .rerr =>
                  { st with
                    record := applyUpdate st.record
                      { status := some .error }
                    stopped := true
                    inFlight := false }
            else { st with consecutiveErrors := e, inFlight := false }

/-- Run a sequence of fine-grained events. -/
def fineRun (st : FineState) (evs : List FineEvent) : FineState :=
  evs.foldl fineStep st

/-- The fine-grained state right after the pre-loop `updateHoldState` of
`runHoldCycle`: no renewal in flight yet. -/
def fineInit (r : HoldState) (now : Nat) : FineState :=
  { record := (initHold r now).record
    cycleCount := 0
    consecutiveErrors := 0
    stopped := false
    inFlight := false }

/-- Invariant of the fine-grained model: the loop's local `cycleCount`
mirrors the stored one and the stored fee always equals
`cycleCount × HOLD_RATE_CENTS`. -/
def FineInv (st : FineState) : Prop :=
  st.cycleCount = st.record.cycleCount ∧
  st.record.totalFeeCents = st.record.cycleCount * HOLD_RATE_CENTS

/-! ### Concrete instances used by witnesses and counterexamples -/

/-- A freshly created hold for the demo event. -/
def sampleHold : HoldState :=
  createHoldState "hold-1" "https://kydlabs.com/p/lpr/e/emo" "Emo Night" "GA"
    2 (some "5551234567") 1000

/-- The same hold after reaching the terminal status `dropped`. -/
def droppedHold : HoldState :=
  { sampleHold with status := Status.dropped }

/-- First inbound fan message, at t = 1,000,000 ms. -/
def fanMsg1 : Msg :=
  { rowid := 1, sender := "+15551234567", text := "hold 2 emo night",
    isFromMe := false }

/-- Second message from the same fan five seconds later. -/
def fanMsg2 : Msg :=
  { rowid := 2, sender := "+15551234567", text := "buy", isFromMe := false }

/-- Third message from the same fan (differently formatted number) eleven
seconds after the first. -/
def fanMsg3 : Msg :=
  { rowid := 3, sender := "5551234567", text := "status", isFromMe := false }

/-! ### Store lemmas -/

/-- A record returned by `getHoldState` is in the store and carries the
looked-up id. -/
theorem getHoldState_sound {holdId : String} {store : Store} {h : HoldState}
    (hf : getHoldState holdId store = some h) :
    h ∈ store ∧ h.holdId = holdId := by
  refine ⟨List.mem_of_find?_eq_some hf, ?_⟩
  have := List.find?_some hf
  exact of_decide_eq_true this

/-- Mutating one record commutes with looking it up, for any per-record
transform that does not change the id. -/
theorem getHoldState_mutate (holdId : String) (g : HoldState → HoldState)
    (hg : ∀ h, (g h).holdId = h.holdId) (store : Store) :
    getHoldState holdId
        (store.map (fun h => if h.holdId = holdId then g h else h)) =
      (getHoldState holdId store).map g := by
  induction store with
  | nil => rfl
  | cons a t ih =>
    unfold getHoldState at ih ⊢
    simp only [List.map_cons]
    by_cases hc : a.holdId = holdId
    · rw [if_pos hc]
      have hga : (g a).holdId = holdId := by rw [hg a]; exact hc
      rw [List.find?_cons_of_pos _ (by simpa using hga),
        List.find?_cons_of_pos _ (by simpa using hc)]
      rfl
    · rw [if_neg hc]
      rw [List.find?_cons_of_neg _ (by simpa using hc),
        List.find?_cons_of_neg _ (by simpa using hc)]
      exact ih

/-- Effect of `updateHoldState` seen through `getHoldState`. -/
theorem getHoldState_updateHoldState (holdId : String) (u : HoldUpdate)
    (store : Store) :
    getHoldState holdId (updateHoldState holdId u store) =
      (getHoldState holdId store).map (fun h => applyUpdate h u) :=
  getHoldState_mutate holdId (fun h => applyUpdate h u) (fun _ => rfl) store

/-- Effect of `sendHoldCommand` seen through `getHoldState`. -/
theorem getHoldState_sendHoldCommand (holdId : String) (c : Command)
    {store : Store} {h0 : HoldState}
    (hex : getHoldState holdId store = some h0) :
    getHoldState holdId (sendHoldCommand holdId c store).2 =
      some { h0 with command := some c } := by
  unfold sendHoldCommand
  rw [hex]
  simpa using
    (getHoldState_mutate holdId (fun h => { h with command := some c })
      (fun _ => rfl) store).trans (by rw [hex]; rfl)

/-! ### C7 — `getHoldByPhone` -/

/-- C7 counterexample: `getHoldByPhone` does return a reservation that has
already reached a terminal status.  With the store holding a single record
for the phone number whose status is `dropped` (the spec's `Released`), the
lookup returns that terminal record rather than `none`, contradicting the
claim that it never returns a terminal reservation. -/
theorem getHoldByPhone_returns_terminal_cex :
    getHoldByPhone "5551234567" [droppedHold] = some droppedHold ∧
      Status.isTerminal droppedHold.status = true := by
  constructor
  · rfl
  · rfl

/-- C7 (amended): `getHoldByPhone` returns the first stored hold whose
`fanPhone` equals the queried number, regardless of its status (terminal
statuses are not filtered out), and returns `none` exactly when no stored
hold has that phone number. -/
theorem getHoldByPhone_spec (p : String) (store : Store) :
    (∀ h, getHoldByPhone p store = some h →
      h ∈ store ∧ h.fanPhone = some p) ∧
    (getHoldByPhone p store = none → ∀ h ∈ store, h.fanPhone ≠ some p) := by
  constructor
  · intro h hf
    have hf' : List.find? (fun h => decide (h.fanPhone = some p)) store =
        some h := hf
    refine ⟨List.mem_of_find?_eq_some hf', ?_⟩
    simpa using List.find?_some hf'
  · intro hn h hmem
    have hn' : List.find? (fun h => decide (h.fanPhone = some p)) store =
        none := hn
    have := List.find?_eq_none.mp hn' h hmem
    simpa using this

/-- C7 witness: the amended lookup property applied to a concrete store. -/
theorem getHoldByPhone_spec_witness :
    droppedHold ∈ [droppedHold] ∧ droppedHold.fanPhone = some "5551234567" :=
  (getHoldByPhone_spec "5551234567" [droppedHold]).1 droppedHold rfl

/-! ### C9 — last-write-wins pending command -/

/-- C9: a second `sendHoldCommand` before the first is consumed overwrites
it — after two submissions the stored pending command is the second one. -/
theorem sendHoldCommand_lastWriteWins (holdId : String) (c1 c2 : Command)
    (store : Store) (h0 : HoldState)
    (hex : getHoldState holdId store = some h0) :
    getHoldState holdId
        (sendHoldCommand holdId c2
          (sendHoldCommand holdId c1 store).2).2 =
      some { h0 with command := some c2 } := by
  have h1 := getHoldState_sendHoldCommand holdId c1 hex
  have h2 := getHoldState_sendHoldCommand holdId c2 h1
  exact h2

/-- C9 witness: buy then drop on a concrete store leaves `drop` pending. -/
theorem sendHoldCommand_lastWriteWins_witness :
    getHoldState "hold-1"
        (sendHoldCommand "hold-1" Command.drop
          (sendHoldCommand "hold-1" Command.buy [sampleHold]).2).2 =
      some { sampleHold with command := some Command.drop } :=
  sendHoldCommand_lastWriteWins "hold-1" Command.buy Command.drop
    [sampleHold] sampleHold rfl

/-! ### C8 — terminal records are not immutable -/

/-- C8 counterexample: the buy endpoint mutates a record that already
reached the terminal status `dropped`, changing its status to `buying` and
writing command and fan fields — so terminal records are not immutable. -/
theorem terminal_mutation_cex :
    Status.isTerminal droppedHold.status = true ∧
    getHoldState "hold-1"
        (routeBuyStore "hold-1" (some "Ann") (some "ann@example.com")
          [droppedHold]) =
      some { droppedHold with
              status := Status.buying, command := some Command.buy,
              fanName := some "Ann", fanEmail := some "ann@example.com" } ∧
    Status.buying ≠ Status.dropped := by
  refine ⟨rfl, rfl, ?_⟩
  decide

/-- C8 (amended): no operation checks for terminal status —
`updateHoldState` applies any update to a terminal record,
`sendHoldCommand` overwrites its pending command, the buy endpoint sets
status `buying` plus command and fan fields on it, and the drop endpoint
sets status `dropped` on it. -/
theorem terminal_records_not_immutable (holdId : String) (store : Store)
    (h0 : HoldState) (u : HoldUpdate) (c : Command) (n e : Option String)
    (hex : getHoldState holdId store = some h0)
    (hterm : Status.isTerminal h0.status = true) :
    getHoldState holdId (updateHoldState holdId u store) =
      some (applyUpdate h0 u) ∧
    getHoldState holdId (sendHoldCommand holdId c store).2 =
      some { h0 with command := some c } ∧
    getHoldState holdId (routeBuyStore holdId n e store) =
      some (applyUpdate h0
        { status := some .buying, command := some (some .buy),
          fanName := some n, fanEmail := some e }) ∧
    getHoldState holdId (routeDropStore holdId store) =
      some { h0 with
              command := some Command.drop,
              status := Status.dropped } := by
  refine ⟨?_, getHoldState_sendHoldCommand holdId c hex, ?_, ?_⟩
  · rw [getHoldState_updateHoldState, hex]; rfl
  · unfold routeBuyStore
    rw [hex, getHoldState_updateHoldState, hex]; rfl
  · unfold routeDropStore
    have hsend : sendHoldCommand holdId Command.drop store =
        (true, store.map (fun h =>
          if h.holdId = holdId then { h with command := some Command.drop }
          else h)) := by
      unfold sendHoldCommand; rw [hex]
    rw [hsend]
    have hmid : getHoldState holdId
        (store.map (fun h =>
          if h.holdId = holdId then { h with command := some Command.drop }
          else h)) = some { h0 with command := some Command.drop } := by
      rw [getHoldState_mutate holdId
        (fun h => { h with command := some Command.drop })
        (fun _ => rfl) store, hex]
      rfl
    rw [getHoldState_updateHoldState, hmid]
    rfl

/-- C8 witness for the amended theorem, on a concrete terminal record. -/
theorem terminal_records_not_immutable_witness :
    getHoldState "hold-1"
        (updateHoldState "hold-1" { status := some Status.active }
          [droppedHold]) =
      some (applyUpdate droppedHold { status := some Status.active }) :=
  (terminal_records_not_immutable "hold-1" [droppedHold] droppedHold
    { status := some Status.active } Command.buy none none rfl rfl).1

/-! ### C10 — endpoint responses never expose fan phone or email -/

/-- Sanitization only reads the non-PII fields. -/
theorem sanitizeHold_scrubPII (now : Nat) (h : HoldState) :
    sanitizeHold now (scrubPII h) = sanitizeHold now h :=
  rfl

/-- Stores that agree record-by-record after scrubbing produce the same
status-endpoint response. -/
theorem statusEndpoint_scrub_congr (now : Nat) (holdId : String)
    {s1 s2 : Store}
    (hps : List.Forall₂ (fun a b => scrubPII a = scrubPII b) s1 s2) :
    statusEndpoint now holdId s1 = statusEndpoint now holdId s2 := by
  induction hps with
  | nil => rfl
  | cons hab _ ih =>
    rename_i a b t1 t2 _
    have hid : a.holdId = b.holdId := by
      have := congrArg HoldState.holdId hab
      simpa [scrubPII] using this
    unfold statusEndpoint getHoldState at ih ⊢
    by_cases hc : a.holdId = holdId
    · have hcb : b.holdId = holdId := by rw [← hid]; exact hc
      rw [List.find?_cons_of_pos _ (by simpa using hc),
        List.find?_cons_of_pos _ (by simpa using hcb)]
      show some (sanitizeHold now a) = some (sanitizeHold now b)
      rw [← sanitizeHold_scrubPII now a, ← sanitizeHold_scrubPII now b, hab]
    · have hcb : ¬ b.holdId = holdId := by rw [← hid]; exact hc
      rw [List.find?_cons_of_neg _ (by simpa using hc),
        List.find?_cons_of_neg _ (by simpa using hcb)]
      exact ih

/-- Stores that agree record-by-record after scrubbing produce the same
active-holds listing. -/
theorem holdsEndpoint_scrub_congr (now : Nat) {s1 s2 : Store}
    (hps : List.Forall₂ (fun a b => scrubPII a = scrubPII b) s1 s2) :
    holdsEndpoint now s1 = holdsEndpoint now s2 := by
  induction hps with
  | nil => rfl
  | cons hab _ ih =>
    rename_i a b t1 t2 _
    have hst : a.status = b.status := by
      have := congrArg HoldState.status hab
      simpa [scrubPII] using this
    unfold holdsEndpoint getActiveHolds getAllHolds at ih ⊢
    simp only [List.filter_cons]
    rw [hst]
    by_cases hc : (decide (b.status = Status.active) ||
        decide (b.status = Status.buying)) = true
    · rw [if_pos hc, if_pos hc]
      simp only [List.map_cons]
      rw [show sanitizeHold now a = sanitizeHold now b by
        rw [← sanitizeHold_scrubPII now a, ← sanitizeHold_scrubPII now b,
          hab]]
      exact congrArg _ ih
    · rw [if_neg hc, if_neg hc]
      exact ih

/-- C10: the status endpoint and the active-holds listing always blank
`fanPhone` and `fanEmail` in every returned view, and their responses are
unchanged when any reservation's `fanPhone`/`fanEmail` values change — the
endpoints never depend on or reveal that data. -/
theorem endpoints_never_expose_pii :
    (∀ (now : Nat) (holdId : String) (store : Store) (v : HoldView),
      statusEndpoint now holdId store = some v →
        v.fanPhone = none ∧ v.fanEmail = none) ∧
    (∀ (now : Nat) (store : Store) (v : HoldView),
      v ∈ holdsEndpoint now store →
        v.fanPhone = none ∧ v.fanEmail = none) ∧
    (∀ (now : Nat) (holdId : String) (s1 s2 : Store),
      List.Forall₂ (fun a b => scrubPII a = scrubPII b) s1 s2 →
        statusEndpoint now holdId s1 = statusEndpoint now holdId s2 ∧
        holdsEndpoint now s1 = holdsEndpoint now s2) := by
  refine ⟨?_, ?_, ?_⟩
  · intro now holdId store v hv
    unfold statusEndpoint at hv
    match hfind : getHoldState holdId store with
    | none => rw [hfind] at hv; cases hv
    | some h =>
        rw [hfind] at hv
        have : sanitizeHold now h = v := by simpa using hv
        rw [← this]
        exact ⟨rfl, rfl⟩
  · intro now store v hv
    unfold holdsEndpoint at hv
    obtain ⟨h, _, hh⟩ := List.mem_map.mp hv
    rw [← hh]
    exact ⟨rfl, rfl⟩
  · intro now holdId s1 s2 hps
    exact ⟨statusEndpoint_scrub_congr now holdId hps,
      holdsEndpoint_scrub_congr now hps⟩

/-- C10 witness: two one-record stores differing only in phone and email
give the same status response, with the PII fields blank in it. -/
theorem endpoints_never_expose_pii_witness :
    statusEndpoint 2000 "hold-1" [sampleHold] =
      statusEndpoint 2000 "hold-1"
        [{ sampleHold with
            fanPhone := some "9998887777",
            fanEmail := some "x@y.z" }] ∧
    (sanitizeHold 2000 sampleHold).fanPhone = none ∧
    (sanitizeHold 2000 sampleHold).fanEmail = none := by
  refine ⟨?_, ?_⟩
  · exact ((endpoints_never_expose_pii.2.2 2000 "hold-1" [sampleHold]
      [{ sampleHold with
          fanPhone := some "9998887777",
          fanEmail := some "x@y.z" }]
      (by constructor
          · rfl
          · constructor)).1)
  · exact (endpoints_never_expose_pii.1 2000 "hold-1" [sampleHold]
      (sanitizeHold 2000 sampleHold) rfl)

/-! ### Loop lemmas -/

/-- External operations never touch the counters. -/
theorem extApply_counters (op : ExtOp) (r : HoldState) :
    (extApply op r).cycleCount = r.cycleCount ∧
    (extApply op r).totalFeeCents = r.totalFeeCents := by
  cases op <;> exact ⟨rfl, rfl⟩

/-- Once the loop has exited, no event resumes it and the cycle counter and
accrued fee of the record never change again. -/
theorem runTrace_stopped (evs : List Event) (st : LoopState)
    (h : st.stopped = true) :
    (runTrace st evs).stopped = true ∧
    (runTrace st evs).record.cycleCount = st.record.cycleCount ∧
    (runTrace st evs).cycleCount = st.cycleCount ∧
    (runTrace st evs).record.totalFeeCents = st.record.totalFeeCents := by
  induction evs generalizing st with
  | nil => exact ⟨h, rfl, rfl, rfl⟩
  | cons ev t ih =>
    have hstep : (step st ev).stopped = true ∧
        (step st ev).record.cycleCount = st.record.cycleCount ∧
        (step st ev).cycleCount = st.cycleCount ∧
        (step st ev).record.totalFeeCents = st.record.totalFeeCents := by
      cases ev with
      | ext op =>
          obtain ⟨h1, h2⟩ := extApply_counters op st.record
          exact ⟨h, h1, rfl, h2⟩
      | iter cyc rcv now =>
          have hst : step st (Event.iter cyc rcv now) = st := by
            show loopIter st cyc rcv now = st
            unfold loopIter
            rw [if_pos h]
          rw [hst]
          exact ⟨h, rfl, rfl, rfl⟩
    obtain ⟨hs, h1, h2, h3⟩ := hstep
    obtain ⟨hs', h1', h2', h3'⟩ := ih (step st ev) hs
    exact ⟨hs', h1'.trans h1, h2'.trans h2, h3'.trans h3⟩

/-! ### C2 — a pending Release stops the loop at the next boundary -/

/-- C2: when the pending command is `drop` at a cycle boundary, the
iteration transitions to `dropped` without attempting any renewal (the
result is independent of the renewal and recovery oracle outcomes), stops
the loop, leaves the cycle counter untouched, and on every later trace the
counter never increments again; a `drop` submitted while running is
consumed at the very next boundary. -/
theorem drop_command_stops_loop (st : LoopState) (cyc cyc' : CycleResult)
    (rcv rcv' : RecoveryResult) (now now' : Nat) (evs : List Event)
    (hrun : st.stopped = false)
    (hcmd : st.record.command = some Command.drop) :
    loopIter st cyc rcv now = loopIter st cyc' rcv' now' ∧
    (loopIter st cyc rcv now).record.status = Status.dropped ∧
    (loopIter st cyc rcv now).stopped = true ∧
    (loopIter st cyc rcv now).record.cycleCount = st.record.cycleCount ∧
    (runTrace (loopIter st cyc rcv now) evs).record.cycleCount =
      st.record.cycleCount ∧
    (runTrace (loopIter st cyc rcv now) evs).stopped = true ∧
    (loopIter { st with record := extApply ExtOp.smsDrop st.record }
        cyc rcv now).record.status = Status.dropped := by
  have hiter : ∀ (c : CycleResult) (rv : RecoveryResult) (n : Nat),
      loopIter st c rv n =
        { st with
          record := applyUpdate st.record
            { status := some .dropped, command := some (some .drop) }
          stopped := true } := by
    intro c rv n
    unfold loopIter
    rw [if_neg (by simp [hrun]), hcmd]
  have habs := runTrace_stopped evs
    { st with
      record := applyUpdate st.record
        { status := some .dropped, command := some (some .drop) }
      stopped := true } rfl
  refine ⟨(hiter cyc rcv now).trans (hiter cyc' rcv' now').symm,
    by rw [hiter]; try rfl, by rw [hiter]; try rfl, by rw [hiter]; try rfl,
    ?_, ?_, ?_⟩
  · rw [hiter]; exact habs.2.1
  · rw [hiter]; exact habs.1
  · unfold loopIter
    rw [if_neg (by simp [hrun])]
    rfl

/-- C2 witness: a drop pending on a running hold, with a trailing trace. -/
theorem drop_command_stops_loop_witness :
    (loopIter
        { record := { sampleHold with
                       status := Status.active,
                       command := some Command.drop }
          cycleCount := 0, consecutiveErrors := 0, stopped := false }
        CycleResult.ok RecoveryResult.rok 2000).record.status =
      Status.dropped :=
  (drop_command_stops_loop
    { record := { sampleHold with
                   status := Status.active,
                   command := some Command.drop }
      cycleCount := 0, consecutiveErrors := 0, stopped := false }
    CycleResult.ok (CycleResult.err false) RecoveryResult.rok
    RecoveryResult.rerr 2000 3000 [] rfl rfl).2.1

/-! ### C4 — transient retry, threshold, recovery -/

/-- C4: a failed renewal increments the consecutive-error counter; below the
threshold of `MAX_RETRIES = 3` the iteration changes nothing else (the same
cycle is retried); when the incremented counter reaches the threshold one
recovery attempt runs — success resets the counter to zero and cycling
continues with the record (hence `active` status) untouched, failure sets
status `error` and stops the loop. -/
theorem transient_retry_and_recovery (st : LoopState) (f : Bool)
    (rcv : RecoveryResult) (now : Nat)
    (hrun : st.stopped = false) (hcmd : st.record.command = none)
    (hact : st.record.status = Status.active) :
    (st.consecutiveErrors + 1 < MAX_RETRIES →
      loopIter st (CycleResult.err f) rcv now =
        { st with consecutiveErrors := st.consecutiveErrors + 1 }) ∧
    (MAX_RETRIES ≤ st.consecutiveErrors + 1 →
      loopIter st (CycleResult.err f) RecoveryResult.rok now =
        { st with consecutiveErrors := 0 } ∧
      (loopIter st (CycleResult.err f) RecoveryResult.rok now).record.status =
        Status.active) ∧
    (MAX_RETRIES ≤ st.consecutiveErrors + 1 →
      (loopIter st (CycleResult.err f) RecoveryResult.rerr now).record.status
          = Status.error ∧
      (loopIter st (CycleResult.err f) RecoveryResult.rerr now).stopped =
        true) := by
  refine ⟨?_, ?_, ?_⟩
  · intro hlt
    unfold loopIter
    rw [if_neg (by simp [hrun]), hcmd]
    simp only []
    rw [if_neg (by omega)]
  · intro hge
    have he : loopIter st (CycleResult.err f) RecoveryResult.rok now =
        { st with consecutiveErrors := 0 } := by
      unfold loopIter
      rw [if_neg (by simp [hrun]), hcmd]
      simp only []
      rw [if_pos (by omega)]
    exact ⟨he, by rw [he]; exact hact⟩
  · intro hge
    have he : loopIter st (CycleResult.err f) RecoveryResult.rerr now =
        { st with
          record := applyUpdate st.record { status := some .error }
          stopped := true } := by
      unfold loopIter
      rw [if_neg (by simp [hrun]), hcmd]
      simp only []
      rw [if_pos (by omega)]
    exact ⟨by rw [he]; rfl, by rw [he]⟩

/-- C4 witness: the retry branch on a concrete state with one prior error. -/
theorem transient_retry_and_recovery_witness :
    loopIter
        { record := initHold sampleHold 1000 |>.record
          cycleCount := 0, consecutiveErrors := 1, stopped := false }
        (CycleResult.err false) RecoveryResult.rok 2000 =
      { record := initHold sampleHold 1000 |>.record
        cycleCount := 0, consecutiveErrors := 2, stopped := false } :=
  (transient_retry_and_recovery
    { record := initHold sampleHold 1000 |>.record
      cycleCount := 0, consecutiveErrors := 1, stopped := false }
    false RecoveryResult.rok 2000 rfl rfl rfl).1 (by decide)

/-! ### C1 — fatal errors are not special-cased -/

/-- C1 counterexample: a renewal failure marked fatal, on a freshly started
hold with zero prior consecutive errors, does not transition the record to
`error` (the spec's `Failed`): the loop keeps the record `active`, keeps
running, and merely counts one consecutive error — the catch block never
inspects the error's kind. -/
theorem fatal_error_not_failed_cex :
    (loopIter (initHold sampleHold 1000) (CycleResult.err true)
        RecoveryResult.rok 2000).record.status = Status.active ∧
    (loopIter (initHold sampleHold 1000) (CycleResult.err true)
        RecoveryResult.rok 2000).record.status ≠ Status.error ∧
    (loopIter (initHold sampleHold 1000) (CycleResult.err true)
        RecoveryResult.rok 2000).stopped = false ∧
    (loopIter (initHold sampleHold 1000) (CycleResult.err true)
        RecoveryResult.rok 2000).consecutiveErrors = 1 := by
  refine ⟨rfl, ?_, rfl, rfl⟩
  intro h
  cases h

/-- C1 (amended): the cycling loop handles a fatal renewal failure exactly
like a transient one — the outcome is independent of whether the error is
fatal; below the threshold the record is unchanged and only the
consecutive-error counter grows, and status `error` is reached only through
the at-threshold recovery attempt failing. -/
theorem error_handling_ignores_fatality (st : LoopState) (f1 f2 : Bool)
    (rcv : RecoveryResult) (now : Nat) :
    loopIter st (CycleResult.err f1) rcv now =
      loopIter st (CycleResult.err f2) rcv now ∧
    (st.stopped = false → st.record.command = none →
      st.consecutiveErrors + 1 < MAX_RETRIES →
      (loopIter st (CycleResult.err f1) rcv now).record = st.record ∧
      (loopIter st (CycleResult.err f1) rcv now).consecutiveErrors =
        st.consecutiveErrors + 1 ∧
      (loopIter st (CycleResult.err f1) rcv now).stopped = false) ∧
    (st.stopped = false → st.record.command = none →
      MAX_RETRIES ≤ st.consecutiveErrors + 1 →
      (loopIter st (CycleResult.err f1) RecoveryResult.rerr now).record.status
        = Status.error) := by
  refine ⟨rfl, ?_, ?_⟩
  · intro hrun hcmd hlt
    have he : loopIter st (CycleResult.err f1) rcv now =
        { st with consecutiveErrors := st.consecutiveErrors + 1 } := by
      unfold loopIter
      rw [if_neg (by simp [hrun]), hcmd]
      simp only []
      rw [if_neg (by omega)]
    exact ⟨by rw [he], by rw [he], by rw [he]; exact hrun⟩
  · intro hrun hcmd hge
    have he : loopIter st (CycleResult.err f1) RecoveryResult.rerr now =
        { st with
          record := applyUpdate st.record { status := some .error }
          stopped := true } := by
      unfold loopIter
      rw [if_neg (by simp [hrun]), hcmd]
      simp only []
      rw [if_pos (by omega)]
    rw [he]
    rfl

/-- C1 witness for the amended theorem: fatal and non-fatal failures give
the same next state on a concrete running hold. -/
theorem error_handling_ignores_fatality_witness :
    loopIter (initHold sampleHold 1000) (CycleResult.err true)
        RecoveryResult.rok 2000 =
      loopIter (initHold sampleHold 1000) (CycleResult.err false)
        RecoveryResult.rok 2000 ∧
    (loopIter (initHold sampleHold 1000) (CycleResult.err true)
        RecoveryResult.rok 2000).record =
      (initHold sampleHold 1000).record := by
  have h := error_handling_ignores_fatality (initHold sampleHold 1000)
    true false RecoveryResult.rok 2000
  exact ⟨h.1, (h.2.1 rfl rfl (by decide)).1⟩

/-! ### C3 — counters track the rate and are monotone while Active -/

/-- Equation: an iteration on a stopped loop does nothing. -/
theorem loopIter_of_stopped (st : LoopState) (cyc : CycleResult)
    (rcv : RecoveryResult) (now : Nat) (h : st.stopped = true) :
    loopIter st cyc rcv now = st := by
  unfold loopIter
  rw [if_pos h]

/-- Equation: the successful-renewal branch of the loop body. -/
theorem loopIter_ok (st : LoopState) (rcv : RecoveryResult) (now : Nat)
    (hs : st.stopped = false) (hc : st.record.command = none) :
    loopIter st CycleResult.ok rcv now =
      { record := applyUpdate st.record
          { cycleCount := some (st.cycleCount + 1),
            totalFeeCents := some ((st.cycleCount + 1) * HOLD_RATE_CENTS),
            lastCycleTime := some now, status := some .active }
        cycleCount := st.cycleCount + 1
        consecutiveErrors := 0
        stopped := false } := by
  unfold loopIter
  rw [if_neg (by simp [hs]), hc]

/-- The invariant holds right after `initHold`. -/
theorem loopInv_init (r : HoldState) (now : Nat) : LoopInv (initHold r now) :=
  ⟨rfl, rfl, fun _ _ => rfl⟩

/-- The invariant is preserved by every event. -/
theorem loopInv_step (st : LoopState) (ev : Event) (h : LoopInv st) :
    LoopInv (step st ev) := by
  obtain ⟨h1, h2, h3⟩ := h
  cases ev with
  | ext op =>
    cases op with
    | smsBuy => exact ⟨h1, h2, fun _ hc => by cases hc⟩
    | smsDrop => exact ⟨h1, h2, fun _ hc => by cases hc⟩
    | routeBuy n e => exact ⟨h1, h2, fun _ hc => by cases hc⟩
    | routeDrop => exact ⟨h1, h2, fun _ hc => by cases hc⟩
  | iter cyc rcv now =>
    show LoopInv (loopIter st cyc rcv now)
    by_cases hs : st.stopped = true
    · rw [loopIter_of_stopped st cyc rcv now hs]
      exact ⟨h1, h2, h3⟩
    · have hs' : st.stopped = false := by simpa using hs
      cases hcmd : st.record.command with
      | none =>
        cases cyc with
        | ok =>
          rw [loopIter_ok st rcv now hs' hcmd]
          exact ⟨rfl, rfl, fun _ _ => rfl⟩
        | err f =>
          unfold loopIter
          rw [if_neg (by simp [hs']), hcmd]
          simp only []
          by_cases hth : MAX_RETRIES ≤ st.consecutiveErrors + 1
          · rw [if_pos hth]
            cases rcv with
            | rok => exact ⟨h1, h2, fun hx hc => h3 hs' hc⟩
            | rerr => exact ⟨h1, h2, fun hx _ => by cases hx⟩
          · rw [if_neg hth]
            exact ⟨h1, h2, fun hx hc => h3 hs' hc⟩
      | some c =>
        unfold loopIter
        rw [if_neg (by simp [hs']), hcmd]
        cases c with
        | drop => exact ⟨h1, h2, fun hx _ => by cases hx⟩
        | buy => exact ⟨h1, h2, fun hx _ => by cases hx⟩

/-- The invariant holds along any trace. -/
theorem loopInv_runTrace (evs : List Event) (st : LoopState)
    (h : LoopInv st) : LoopInv (runTrace st evs) := by
  induction evs generalizing st with
  | nil => exact h
  | cons ev t ih => exact ih (step st ev) (loopInv_step st ev h)

/-- Under the invariant, one step never decreases the stored cycle counter
or the stored accrued fee. -/
theorem counters_mono_step (st : LoopState) (ev : Event) (h : LoopInv st) :
    st.record.cycleCount ≤ (step st ev).record.cycleCount ∧
    st.record.totalFeeCents ≤ (step st ev).record.totalFeeCents := by
  obtain ⟨h1, h2, _⟩ := h
  cases ev with
  | ext op =>
    obtain ⟨e1, e2⟩ := extApply_counters op st.record
    exact ⟨le_of_eq e1.symm, le_of_eq e2.symm⟩
  | iter cyc rcv now =>
    show st.record.cycleCount ≤ (loopIter st cyc rcv now).record.cycleCount ∧
      st.record.totalFeeCents ≤ (loopIter st cyc rcv now).record.totalFeeCents
    by_cases hs : st.stopped = true
    · rw [loopIter_of_stopped st cyc rcv now hs]
      exact ⟨le_refl _, le_refl _⟩
    · have hs' : st.stopped = false := by simpa using hs
      cases hcmd : st.record.command with
      | none =>
        cases cyc with
        | ok =>
          rw [loopIter_ok st rcv now hs' hcmd]
          constructor
          · show st.record.cycleCount ≤ st.cycleCount + 1
            omega
          · show st.record.totalFeeCents ≤
              (st.cycleCount + 1) * HOLD_RATE_CENTS
            rw [h2, h1]
            exact Nat.mul_le_mul_right _ (Nat.le_succ _)
        | err f =>
          unfold loopIter
          rw [if_neg (by simp [hs']), hcmd]
          simp only []
          by_cases hth : MAX_RETRIES ≤ st.consecutiveErrors + 1
          · rw [if_pos hth]
            cases rcv with
            | rok => exact ⟨le_refl _, le_refl _⟩
            | rerr => exact ⟨le_refl _, le_refl _⟩
          · rw [if_neg hth]
            exact ⟨le_refl _, le_refl _⟩
      | some c =>
        unfold loopIter
        rw [if_neg (by simp [hs']), hcmd]
        cases c with
        | drop => exact ⟨le_refl _, le_refl _⟩
        | buy => exact ⟨le_refl _, le_refl _⟩

/-- Under the invariant, counters never decrease along any trace. -/
theorem counters_mono_runTrace (evs : List Event) (st : LoopState)
    (h : LoopInv st) :
    st.record.cycleCount ≤ (runTrace st evs).record.cycleCount ∧
    st.record.totalFeeCents ≤ (runTrace st evs).record.totalFeeCents := by
  induction evs generalizing st with
  | nil => exact ⟨le_refl _, le_refl _⟩
  | cons ev t ih =>
    obtain ⟨m1, m2⟩ := counters_mono_step st ev h
    obtain ⟨m1', m2'⟩ := ih (step st ev) (loopInv_step st ev h)
    exact ⟨m1.trans m1', m2.trans m2'⟩

/-- Under the invariant, every step either leaves both counters unchanged
or fires from a record whose status is `active`. -/
theorem counters_change_only_active (st : LoopState) (ev : Event)
    (h : LoopInv st) :
    ((step st ev).record.cycleCount = st.record.cycleCount ∧
      (step st ev).record.totalFeeCents = st.record.totalFeeCents) ∨
    st.record.status = Status.active := by
  obtain ⟨h1, h2, h3⟩ := h
  cases ev with
  | ext op => exact Or.inl (extApply_counters op st.record)
  | iter cyc rcv now =>
    by_cases hs : st.stopped = true
    · left
      have heq : step st (Event.iter cyc rcv now) = st :=
        loopIter_of_stopped st cyc rcv now hs
      rw [heq]
      exact ⟨rfl, rfl⟩
    · have hs' : st.stopped = false := by simpa using hs
      cases hcmd : st.record.command with
      | none =>
        cases cyc with
        | ok => exact Or.inr (h3 hs' hcmd)
        | err f =>
          left
          show (loopIter st (CycleResult.err f) rcv now).record.cycleCount =
              st.record.cycleCount ∧
            (loopIter st (CycleResult.err f) rcv now).record.totalFeeCents =
              st.record.totalFeeCents
          unfold loopIter
          rw [if_neg (by simp [hs']), hcmd]
          simp only []
          by_cases hth : MAX_RETRIES ≤ st.consecutiveErrors + 1
          · rw [if_pos hth]
            cases rcv with
            | rok => exact ⟨rfl, rfl⟩
            | rerr => exact ⟨rfl, rfl⟩
          · rw [if_neg hth]
            exact ⟨rfl, rfl⟩
      | some c =>
        left
        show (loopIter st cyc rcv now).record.cycleCount =
            st.record.cycleCount ∧
          (loopIter st cyc rcv now).record.totalFeeCents =
            st.record.totalFeeCents
        unfold loopIter
        rw [if_neg (by simp [hs']), hcmd]
        cases c with
        | drop => exact ⟨rfl, rfl⟩
        | buy => exact ⟨rfl, rfl⟩

/-! ### C3 — fine-grained interleaving: counters and status -/

/-- The fine-grained invariant holds right after `fineInit`. -/
theorem fineInv_init (r : HoldState) (now : Nat) : FineInv (fineInit r now) :=
  ⟨rfl, rfl⟩

/-- The fine-grained invariant is preserved by every event, including
external operations landing inside the in-flight window. -/
theorem fineInv_step (st : FineState) (ev : FineEvent) (h : FineInv st) :
    FineInv (fineStep st ev) := by
  obtain ⟨h1, h2⟩ := h
  cases ev with
  | ext op =>
    obtain ⟨e1, e2⟩ := extApply_counters op st.record
    refine ⟨h1.trans e1.symm, ?_⟩
    show (extApply op st.record).totalFeeCents =
      (extApply op st.record).cycleCount * HOLD_RATE_CENTS
    rw [e2, e1]
    exact h2
  | boundary =>
    simp only [fineStep]
    by_cases hb : (st.stopped || st.inFlight) = true
    · rw [if_pos hb]; exact ⟨h1, h2⟩
    · rw [if_neg hb]
      cases hcmd : st.record.command with
      | none => exact ⟨h1, h2⟩
      | some c =>
        cases c with
        | buy => exact ⟨h1, h2⟩
        | drop => exact ⟨h1, h2⟩
  | complete cyc rcv now =>
    simp only [fineStep]
    by_cases hb : (st.stopped || !st.inFlight) = true
    · rw [if_pos hb]; exact ⟨h1, h2⟩
    · rw [if_neg hb]
      cases cyc with
      | ok => exact ⟨rfl, rfl⟩
      | err f =>
        simp only []
        by_cases hth : MAX_RETRIES ≤ st.consecutiveErrors + 1
        · rw [if_pos hth]
          cases rcv with
          | rok => exact ⟨h1, h2⟩
          | rerr => exact ⟨h1, h2⟩
        · rw [if_neg hth]
          exact ⟨h1, h2⟩

/-- The fine-grained invariant holds along any trace. -/
theorem fineInv_run (evs : List FineEvent) (st : FineState)
    (h : FineInv st) : FineInv (fineRun st evs) := by
  induction evs generalizing st with
  | nil => exact h
  | cons ev t ih => exact ih (fineStep st ev) (fineInv_step st ev h)

/-- Under the invariant, one fine-grained step never decreases the stored
cycle counter or the stored fee. -/
theorem fine_mono_step (st : FineState) (ev : FineEvent) (h : FineInv st) :
    st.record.cycleCount ≤ (fineStep st ev).record.cycleCount ∧
    st.record.totalFeeCents ≤ (fineStep st ev).record.totalFeeCents := by
  obtain ⟨h1, h2⟩ := h
  cases ev with
  | ext op =>
    obtain ⟨e1, e2⟩ := extApply_counters op st.record
    exact ⟨le_of_eq e1.symm, le_of_eq e2.symm⟩
  | boundary =>
    simp only [fineStep]
    by_cases hb : (st.stopped || st.inFlight) = true
    · rw [if_pos hb]; exact ⟨le_refl _, le_refl _⟩
    · rw [if_neg hb]
      cases hcmd : st.record.command with
      | none => exact ⟨le_refl _, le_refl _⟩
      | some c =>
        cases c with
        | buy => exact ⟨le_refl _, le_refl _⟩
        | drop => exact ⟨le_refl _, le_refl _⟩
  | complete cyc rcv now =>
    simp only [fineStep]
    by_cases hb : (st.stopped || !st.inFlight) = true
    · rw [if_pos hb]; exact ⟨le_refl _, le_refl _⟩
    · rw [if_neg hb]
      cases cyc with
      | ok =>
        constructor
        · show st.record.cycleCount ≤ st.cycleCount + 1
          omega
        · show st.record.totalFeeCents ≤
            (st.cycleCount + 1) * HOLD_RATE_CENTS
          rw [h2, h1]
          exact Nat.mul_le_mul_right _ (Nat.le_succ _)
      | err f =>
        simp only []
        by_cases hth : MAX_RETRIES ≤ st.consecutiveErrors + 1
        · rw [if_pos hth]
          cases rcv with
          | rok => exact ⟨le_refl _, le_refl _⟩
          | rerr => exact ⟨le_refl _, le_refl _⟩
        · rw [if_neg hth]
          exact ⟨le_refl _, le_refl _⟩

/-- Under the invariant, counters never decrease along any fine trace. -/
theorem fine_mono_run (evs : List FineEvent) (st : FineState)
    (h : FineInv st) :
    st.record.cycleCount ≤ (fineRun st evs).record.cycleCount ∧
    st.record.totalFeeCents ≤ (fineRun st evs).record.totalFeeCents := by
  induction evs generalizing st with
  | nil => exact ⟨le_refl _, le_refl _⟩
  | cons ev t ih =>
    obtain ⟨m1, m2⟩ := fine_mono_step st ev h
    obtain ⟨m1', m2'⟩ := ih (fineStep st ev) (fineInv_step st ev h)
    exact ⟨m1.trans m1', m2.trans m2'⟩

/-- Every fine-grained step either leaves both counters unchanged or is the
successful completion of a renewal that was in flight on the still-running
loop — no external operation and no other branch writes them. -/
theorem fineStep_counters_source (st : FineState) (ev : FineEvent) :
    ((fineStep st ev).record.cycleCount = st.record.cycleCount ∧
      (fineStep st ev).record.totalFeeCents = st.record.totalFeeCents) ∨
    (∃ rcv now, ev = FineEvent.complete CycleResult.ok rcv now ∧
      st.stopped = false ∧ st.inFlight = true) := by
  cases ev with
  | ext op => exact Or.inl (extApply_counters op st.record)
  | boundary =>
    left
    simp only [fineStep]
    by_cases hb : (st.stopped || st.inFlight) = true
    · rw [if_pos hb]; exact ⟨rfl, rfl⟩
    · rw [if_neg hb]
      cases hcmd : st.record.command with
      | none => exact ⟨rfl, rfl⟩
      | some c =>
        cases c with
        | buy => exact ⟨rfl, rfl⟩
        | drop => exact ⟨rfl, rfl⟩
  | complete cyc rcv now =>
    by_cases hb : (st.stopped || !st.inFlight) = true
    · left
      simp only [fineStep]
      rw [if_pos hb]
      exact ⟨rfl, rfl⟩
    · have hb' : (st.stopped || !st.inFlight) = false := by
        cases hx : (st.stopped || !st.inFlight) with
        | false => rfl
        | true => exact absurd hx hb
      have hsf : st.stopped = false ∧ st.inFlight = true := by
        obtain ⟨hs, hf⟩ := Bool.or_eq_false_iff.mp hb'
        exact ⟨hs, by simpa using hf⟩
      cases cyc with
      | ok => exact Or.inr ⟨rcv, now, rfl, hsf.1, hsf.2⟩
      | err f =>
        left
        simp only [fineStep]
        rw [if_neg hb]
        by_cases hth : MAX_RETRIES ≤ st.consecutiveErrors + 1
        · rw [if_pos hth]
          cases rcv with
          | rok => exact ⟨rfl, rfl⟩
          | rerr => exact ⟨rfl, rfl⟩
        · rw [if_neg hth]
          exact ⟨rfl, rfl⟩

/-- C3 counterexample: the program's real schedule violates "counters only
change while status is Active".  The loop passes its command check with no
command pending and starts a renewal; during the awaited ~5-minute cycle
the drop endpoint sets the stored status to `dropped`; the in-flight cycle
then completes successfully, incrementing the cycle counter and the fee
(and resetting the status to `active`) from a state whose stored status was
`dropped` — a terminal, non-Active status. -/
theorem counters_change_while_not_active_cex :
    (fineRun (fineInit sampleHold 1000)
        [FineEvent.boundary,
         FineEvent.ext ExtOp.routeDrop]).record.status = Status.dropped ∧
    (fineRun (fineInit sampleHold 1000)
        [FineEvent.boundary,
         FineEvent.ext ExtOp.routeDrop]).record.cycleCount = 0 ∧
    (fineRun (fineInit sampleHold 1000)
        [FineEvent.boundary,
         FineEvent.ext ExtOp.routeDrop]).record.totalFeeCents = 0 ∧
    (fineRun (fineInit sampleHold 1000)
        [FineEvent.boundary, FineEvent.ext ExtOp.routeDrop,
         FineEvent.complete CycleResult.ok RecoveryResult.rok
           2000]).record.cycleCount = 1 ∧
    (fineRun (fineInit sampleHold 1000)
        [FineEvent.boundary, FineEvent.ext ExtOp.routeDrop,
         FineEvent.complete CycleResult.ok RecoveryResult.rok
           2000]).record.totalFeeCents = HOLD_RATE_CENTS ∧
    (fineRun (fineInit sampleHold 1000)
        [FineEvent.boundary, FineEvent.ext ExtOp.routeDrop,
         FineEvent.complete CycleResult.ok RecoveryResult.rok
           2000]).record.status = Status.active := by
  decide

/-- C3 (amended): in the fine-grained model where store mutations can land
inside the in-flight renewal window, the stored fee always equals the
stored cycle counter times `HOLD_RATE_CENTS` (in particular after every
successful renewal), both counters are non-decreasing over any further
events, and any step that changes either counter is the successful
completion of an in-flight renewal on the running loop — but such a
completion may fire while the stored status is `dropped` or `buying`, so
"only while Active" does not hold. -/
theorem fine_counters_track_rate_and_monotone (r : HoldState) (now0 : Nat)
    (evs evs2 : List FineEvent) (ev : FineEvent) :
    (fineRun (fineInit r now0) evs).record.totalFeeCents =
      (fineRun (fineInit r now0) evs).record.cycleCount *
        HOLD_RATE_CENTS ∧
    (fineRun (fineInit r now0) evs).record.cycleCount ≤
      (fineRun (fineRun (fineInit r now0) evs) evs2).record.cycleCount ∧
    (fineRun (fineInit r now0) evs).record.totalFeeCents ≤
      (fineRun (fineRun (fineInit r now0) evs) evs2).record.totalFeeCents ∧
    (((fineStep (fineRun (fineInit r now0) evs) ev).record.cycleCount ≠
        (fineRun (fineInit r now0) evs).record.cycleCount ∨
      (fineStep (fineRun (fineInit r now0) evs) ev).record.totalFeeCents ≠
        (fineRun (fineInit r now0) evs).record.totalFeeCents) →
      ∃ rcv now, ev = FineEvent.complete CycleResult.ok rcv now ∧
        (fineRun (fineInit r now0) evs).stopped = false ∧
        (fineRun (fineInit r now0) evs).inFlight = true) := by
  have hinv := fineInv_run evs (fineInit r now0) (fineInv_init r now0)
  obtain ⟨m1, m2⟩ := fine_mono_run evs2 _ hinv
  refine ⟨hinv.2, m1, m2, ?_⟩
  intro hch
  rcases fineStep_counters_source (fineRun (fineInit r now0) evs) ev with
    hsame | hsrc
  · exact absurd hsame (by tauto)
  · exact hsrc

/-- C3 witness for the amended theorem: the fee tracks the counter after
the counterexample's own schedule (boundary, drop endpoint mid-cycle,
in-flight completion). -/
theorem fine_counters_track_rate_and_monotone_witness :
    (fineRun (fineInit sampleHold 1000)
        [FineEvent.boundary, FineEvent.ext ExtOp.routeDrop,
         FineEvent.complete CycleResult.ok RecoveryResult.rok
           2000]).record.totalFeeCents =
      (fineRun (fineInit sampleHold 1000)
        [FineEvent.boundary, FineEvent.ext ExtOp.routeDrop,
         FineEvent.complete CycleResult.ok RecoveryResult.rok
           2000]).record.cycleCount * HOLD_RATE_CENTS :=
  (fine_counters_track_rate_and_monotone sampleHold 1000
    [FineEvent.boundary, FineEvent.ext ExtOp.routeDrop,
     FineEvent.complete CycleResult.ok RecoveryResult.rok 2000]
    [FineEvent.boundary]
    (FineEvent.complete CycleResult.ok RecoveryResult.rok 3000)).1

/-! ### C5 — high-water-mark dedup -/

/-- The filtering/routing pipeline never touches the high-water mark. -/
theorem processNewMsg_lastSeen (now : Nat) (reply : String) (sendOk : Bool)
    (st : SmsState) (msg : Msg) :
    (processNewMsg now reply sendOk st msg).lastSeenRowId =
      st.lastSeenRowId := by
  unfold processNewMsg
  by_cases hB : msg.isFromMe = true
  · rw [if_pos hB]
  · rw [if_neg hB]
    by_cases hC : msg.sender = KYD_2FA_SENDER
    · rw [if_pos hC]
    · rw [if_neg hC]
      by_cases hD : isBlank msg.text = true
      · rw [if_pos hD]
      · rw [if_neg hD]
        by_cases hE : st.sentTexts.any (fun p => decide (p.1 = msg.text))
            = true
        · rw [if_pos hE]
        · rw [if_neg hE]
          simp only []
          by_cases hF : now - (lookupTS (normalizePhone msg.sender)
              st.phoneCooldowns).getD 0 < COOLDOWN_MS
          · rw [if_pos hF]
          · rw [if_neg hF]
            by_cases hS : sendOk = true
            · rw [if_pos hS]
            · rw [if_neg hS]

/-- C5: a message whose id is at or below the high-water mark is a complete
no-op (nothing is routed, no state field changes), and for any new message
the mark is raised to `max(current, id)` no matter how the later filters
treat it. -/
theorem highWaterMark_dedup (now : Nat) (reply : String) (sendOk : Bool)
    (st : SmsState) (msg : Msg) :
    (msg.rowid ≤ st.lastSeenRowId →
      processOneMsg now reply sendOk st msg = st) ∧
    (st.lastSeenRowId < msg.rowid →
      (processOneMsg now reply sendOk st msg).lastSeenRowId =
        max st.lastSeenRowId msg.rowid) := by
  constructor
  · intro h
    unfold processOneMsg
    rw [if_pos h]
  · intro h
    unfold processOneMsg
    rw [if_neg (by omega)]
    exact processNewMsg_lastSeen now reply sendOk
      { st with lastSeenRowId := max st.lastSeenRowId msg.rowid } msg

/-- C5 witness: after the mark has reached 42, re-delivering message 42
changes nothing; a fresh message 43 raises the mark to 43. -/
theorem highWaterMark_dedup_witness :
    processOneMsg 1000000 "QUORUM reply" true
        { smsInit with lastSeenRowId := 42 }
        { fanMsg1 with rowid := 42 } =
      { smsInit with lastSeenRowId := 42 } ∧
    (processOneMsg 1000000 "QUORUM reply" true
        { smsInit with lastSeenRowId := 42 }
        { fanMsg1 with rowid := 43 }).lastSeenRowId = 43 :=
  ⟨(highWaterMark_dedup 1000000 "QUORUM reply" true
      { smsInit with lastSeenRowId := 42 }
      { fanMsg1 with rowid := 42 }).1 (by decide),
   (highWaterMark_dedup 1000000 "QUORUM reply" true
      { smsInit with lastSeenRowId := 42 }
      { fanMsg1 with rowid := 43 }).2 (by decide)⟩

/-! ### C6 — per-sender cooldown -/

/-- A message whose sender is still inside the cooldown window passes
through the pipeline without any effect. -/
theorem processNewMsg_discard_cooldown (now : Nat) (reply : String)
    (sendOk : Bool) (st : SmsState) (msg : Msg)
    (h2 : msg.isFromMe = false)
    (h3 : msg.sender ≠ KYD_2FA_SENDER)
    (h4 : isBlank msg.text = false)
    (h5 : st.sentTexts.any (fun p => decide (p.1 = msg.text)) = false)
    (h6 : now - (lookupTS (normalizePhone msg.sender)
        st.phoneCooldowns).getD 0 < COOLDOWN_MS) :
    processNewMsg now reply sendOk st msg = st := by
  unfold processNewMsg
  rw [if_neg (by simp [h2]), if_neg h3, if_neg (by simp [h4]),
    if_neg (by simp [h5])]
  simp only []
  rw [if_pos h6]

/-- The pipeline writes the cooldown map only when the message is routed
and the reply send succeeds. -/
theorem processNewMsg_cooldown_write (now : Nat) (reply : String)
    (sendOk : Bool) (st : SmsState) (msg : Msg) :
    (processNewMsg now reply sendOk st msg).phoneCooldowns =
      st.phoneCooldowns ∨
    ((processNewMsg now reply sendOk st msg).routed = msg :: st.routed ∧
      sendOk = true) := by
  unfold processNewMsg
  by_cases hB : msg.isFromMe = true
  · rw [if_pos hB]; left; rfl
  · rw [if_neg hB]
    by_cases hC : msg.sender = KYD_2FA_SENDER
    · rw [if_pos hC]; left; rfl
    · rw [if_neg hC]
      by_cases hD : isBlank msg.text = true
      · rw [if_pos hD]; left; rfl
      · rw [if_neg hD]
        by_cases hE : st.sentTexts.any (fun p => decide (p.1 = msg.text))
            = true
        · rw [if_pos hE]; left; rfl
        · rw [if_neg hE]
          simp only []
          by_cases hF : now - (lookupTS (normalizePhone msg.sender)
              st.phoneCooldowns).getD 0 < COOLDOWN_MS
          · rw [if_pos hF]; left; rfl
          · rw [if_neg hF]
            by_cases hS : sendOk = true
            · rw [if_pos hS]; right; exact ⟨rfl, hS⟩
            · rw [if_neg hS]; left; rfl

/-- Same statement lifted over the whole per-message body. -/
theorem processOneMsg_cooldown_write (now : Nat) (reply : String)
    (sendOk : Bool) (st : SmsState) (msg : Msg) :
    (processOneMsg now reply sendOk st msg).phoneCooldowns =
      st.phoneCooldowns ∨
    ((processOneMsg now reply sendOk st msg).routed = msg :: st.routed ∧
      sendOk = true) := by
  unfold processOneMsg
  by_cases hA : msg.rowid ≤ st.lastSeenRowId
  · rw [if_pos hA]; left; rfl
  · rw [if_neg hA]
    exact processNewMsg_cooldown_write now reply sendOk
      { st with lastSeenRowId := max st.lastSeenRowId msg.rowid } msg

/-- C6: a message arriving while its sender's cooldown window is open is
silently discarded — only the high-water mark moves, nothing is routed and
no cooldown timestamp is written; the cooldown map is written only when a
message is routed and the reply send succeeds; and in the concrete scenario
of the spec, messages from one fan at t = 0 s, 5 s and 11 s (cooldown 10 s)
yield exactly the first and third being routed. -/
theorem cooldown_discards_and_records (now : Nat) (reply : String)
    (sendOk : Bool) (st : SmsState) (msg : Msg)
    (h1 : st.lastSeenRowId < msg.rowid)
    (h2 : msg.isFromMe = false)
    (h3 : msg.sender ≠ KYD_2FA_SENDER)
    (h4 : isBlank msg.text = false)
    (h5 : st.sentTexts.any (fun p => decide (p.1 = msg.text)) = false)
    (h6 : now - (lookupTS (normalizePhone msg.sender)
        st.phoneCooldowns).getD 0 < COOLDOWN_MS) :
    processOneMsg now reply sendOk st msg =
      { st with lastSeenRowId := max st.lastSeenRowId msg.rowid } ∧
    (∀ (now' : Nat) (reply' : String) (sendOk' : Bool) (st' : SmsState)
        (msg' : Msg),
      (processOneMsg now' reply' sendOk' st' msg').phoneCooldowns =
        st'.phoneCooldowns ∨
      ((processOneMsg now' reply' sendOk' st' msg').routed =
          msg' :: st'.routed ∧ sendOk' = true)) ∧
    (processOneMsg 1005000 "QUORUM reply two" true
        (processOneMsg 1000000 "QUORUM reply one" true smsInit fanMsg1)
        fanMsg2).routed = [fanMsg1] ∧
    (processOneMsg 1011000 "QUORUM reply three" true
        (processOneMsg 1005000 "QUORUM reply two" true
          (processOneMsg 1000000 "QUORUM reply one" true smsInit fanMsg1)
          fanMsg2)
        fanMsg3).routed = [fanMsg3, fanMsg1] := by
  refine ⟨?_, processOneMsg_cooldown_write, ?_, ?_⟩
  · unfold processOneMsg
    rw [if_neg (by omega)]
    exact processNewMsg_discard_cooldown now reply sendOk
      { st with lastSeenRowId := max st.lastSeenRowId msg.rowid } msg
      h2 h3 h4 h5 h6
  · decide
  · decide

/-- C6 witness: the discard equation applied to the concrete second message
of the scenario (arriving five seconds into the first sender's cooldown). -/
theorem cooldown_discards_and_records_witness :
    processOneMsg 1005000 "QUORUM reply two" true
        (processOneMsg 1000000 "QUORUM reply one" true smsInit fanMsg1)
        fanMsg2 =
      { (processOneMsg 1000000 "QUORUM reply one" true smsInit fanMsg1) with
        lastSeenRowId := max
          (processOneMsg 1000000 "QUORUM reply one" true
            smsInit fanMsg1).lastSeenRowId fanMsg2.rowid } :=
  (cooldown_discards_and_records 1005000 "QUORUM reply two" true
    (processOneMsg 1000000 "QUORUM reply one" true smsInit fanMsg1) fanMsg2
    (by decide) (by decide) (by decide) (by decide) (by decide)
    (by decide)).1

end Quorum
